import Mathlib

/-!
Verification of the two-level trie cache of `primitives/trie/src/cache.rs`
(`SharedTrieNodeCache`, `LocalTrieNodeCache`, `TrieNodeCache`, `DataCache`).

Shallow embedding: Rust `HashMap`s are modelled as functions `K → Option V`
(hash maps keyed by decidable equality, insertion overwrites, `extend`
gives priority to the extending map); the shared state behind the
`Arc<RwLock<..>>` handles is passed explicitly through each operation;
the `MappedRwLockWriteGuard` of `DataCache::ForStorageRoot`, which aliases
the shared data map's entry for the bound root, is modelled by storing the
bound root in the variant and indexing the shared state at that root.
Node hashes, decoded nodes, keys, byte strings and fetch errors are opaque
to the cache; they are instantiated with `Nat` / `List Nat` so that every
operation is executable.
-/

namespace TrieCache

/-- `H::Out`: an opaque content hash (also used for storage roots). -/
abbrev Hash := Nat

/-- `NodeOwned<H::Out>`: an opaque decoded trie node. -/
abbrev Node := Nat

/-- `Vec<u8>` used as a data-cache key. -/
abbrev Key := List Nat

/-- `Bytes`: an owned byte string value. -/
abbrev Bytes := List Nat

/-- The error type of the external fetch callback (`CError`), opaque here. -/
abbrev FetchError := Nat

/-- A Rust `HashMap<K, V>` modelled extensionally. -/
abbrev Map (K V : Type) := K → Option V

/-- `HashMap::new` / `Default::default()`. -/
def Map.empty {K V : Type} : Map K V := fun _ => none

/-- `HashMap::insert`: stores `v` under `k`, overwriting any previous entry. -/
def Map.insert {K V : Type} [DecidableEq K] (m : Map K V) (k : K) (v : V) :
    Map K V :=
  fun x => if x = k then some v else m x

/-- `HashMap::extend`: inserts every entry of `other` into `m`
(entries of `other` win on common keys). -/
def Map.extend {K V : Type} (m other : Map K V) : Map K V :=
  fun x => match other x with
    | some v => some v
    | none => m x

/-- The node map `HashMap<H::Out, NodeOwned<H::Out>>`. -/
abbrev NodeMap := Map Hash Node

/-- One per-root value table `HashMap<Vec<u8>, Option<Bytes>>`: an entry
mapped to `none` positively caches "key absent under this root". -/
abbrev DataTable := Map Key (Option Bytes)

/-- The data map `HashMap<H::Out, HashMap<Vec<u8>, Option<Bytes>>>`. -/
abbrev DataMap := Map Hash DataTable

/-- `SharedTrieNodeCache<H>`: the process-wide shared cache. `data_cache`
is `none` exactly when the data-cache feature was disabled at construction
(`Option<Arc<RwLock<..>>>` in the source). -/
structure SharedTrieNodeCache where
  node_cache : NodeMap
  data_cache : Option DataMap

/-- `SharedTrieNodeCache::new(enable_data_cache)`. -/
def SharedTrieNodeCache.new (enable_data_cache : Bool) : SharedTrieNodeCache :=
  { node_cache := Map.empty,
    data_cache := if enable_data_cache then some Map.empty else none }

/-- `LocalTrieNodeCache<H>`: the per-operation private overlay. The
`shared` handle it holds is an `Arc` clone of the shared state, which is
passed explicitly to the operations below. -/
structure LocalTrieNodeCache where
  local_map : NodeMap

/-- `SharedTrieNodeCache::local_cache`: a fresh local cache (empty overlay). -/
def SharedTrieNodeCache.local_cache (_s : SharedTrieNodeCache) :
    LocalTrieNodeCache :=
  { local_map := Map.empty }

/-- `DataCache<'a>`: the data-cache mode of one view. `ForStorageRoot`
stores the bound root; in the source this variant holds a write guard
aliasing the shared data map's entry for that root, so its reads and
writes below index the shared state at the stored root. -/
inductive DataCache where
  | Disabled : DataCache
  | Fresh (map : DataTable) : DataCache
  | ForStorageRoot (root : Hash) : DataCache

/-- `DataCache::get`: look up `key` in the mode's backing table. -/
def DataCache.get (dc : DataCache) (s : SharedTrieNodeCache) (key : Key) :
    Option (Option Bytes) :=
  match dc with
  | .Disabled => none
  | .Fresh map => map key
  | .ForStorageRoot root =>
    match s.data_cache with
    | some dm =>
      match dm root with
      | some t => t key
      | none => none
    | none => none

/-- `DataCache::insert`: record `data` under `key` in the mode's backing
table; `ForStorageRoot` writes through the guard into the shared entry. -/
def DataCache.insert (dc : DataCache) (s : SharedTrieNodeCache) (key : Key)
    (data : Option Bytes) : DataCache × SharedTrieNodeCache :=
  match dc with
  | .Disabled => (dc, s)
  | .Fresh map => (.Fresh (map.insert key data), s)
  | .ForStorageRoot root =>
    match s.data_cache with
    | some dm =>
      let t := (dm root).getD Map.empty
      (dc, { s with data_cache := some (dm.insert root (t.insert key data)) })
    | none => (dc, s)

/-- `TrieNodeCache<'a, H>`: the view handed to the trie engine.
`shared_cache` is the read-guard snapshot of the shared node map;
`local_cache` is the mutex-guarded overlay borrowed from the local cache. -/
structure TrieNodeCache where
  shared_cache : NodeMap
  local_cache : NodeMap
  data_cache : DataCache

/-- `LocalTrieNodeCache::as_trie_db_cache(storage_root)`: bind for read.
With the data cache enabled it takes the per-root entry under the write
lock, auto-creating it empty (`entry(storage_root).or_default()`), and the
view's mode is `ForStorageRoot`; otherwise the mode is `Disabled`.
Returns the view together with the possibly-updated shared state. -/
def LocalTrieNodeCache.as_trie_db_cache (l : LocalTrieNodeCache)
    (s : SharedTrieNodeCache) (storage_root : Hash) :
    TrieNodeCache × SharedTrieNodeCache :=
  match s.data_cache with
  | some dm =>
    let t := (dm storage_root).getD Map.empty
    ({ shared_cache := s.node_cache, local_cache := l.local_map,
       data_cache := .ForStorageRoot storage_root },
     { s with data_cache := some (dm.insert storage_root t) })
  | none =>
    ({ shared_cache := s.node_cache, local_cache := l.local_map,
       data_cache := .Disabled }, s)

/-- `LocalTrieNodeCache::as_trie_db_mut_cache`: bind for write; the data
mode is always a fresh empty table, whether or not the feature is enabled. -/
def LocalTrieNodeCache.as_trie_db_mut_cache (l : LocalTrieNodeCache)
    (s : SharedTrieNodeCache) : TrieNodeCache :=
  { shared_cache := s.node_cache, local_cache := l.local_map,
    data_cache := .Fresh Map.empty }

/-- `impl Drop for LocalTrieNodeCache`: on release the private overlay is
unconditionally drained into the shared node map
(`shared.extend(self.local.lock().drain())`). Returns the updated shared
state and the drained (now empty) overlay. -/
def LocalTrieNodeCache.release (l : LocalTrieNodeCache)
    (s : SharedTrieNodeCache) : SharedTrieNodeCache × LocalTrieNodeCache :=
  ({ s with node_cache := s.node_cache.extend l.local_map },
   { local_map := Map.empty })

/-- `TrieNodeCache::merge_into(local, storage_root)`: a no-op unless the
view's mode is `Fresh`; then the shared per-root table for `storage_root`
is taken under the write lock, auto-created empty, and extended with the
fresh table (`entry(storage_root).or_default().extend(cache)`); a no-op if
the data-cache feature is disabled. -/
def TrieNodeCache.merge_into (c : TrieNodeCache) (s : SharedTrieNodeCache)
    (storage_root : Hash) : SharedTrieNodeCache :=
  match c.data_cache with
  | .Fresh cache =>
    match s.data_cache with
    | some dm =>
      let t := (dm storage_root).getD Map.empty
      { s with data_cache := some (dm.insert storage_root (t.extend cache)) }
    | none => s
  | _ => s

/-- `TrieCache::get_or_insert_node(hash, fetch_node)`: serve from the
shared snapshot, else from the local overlay, else invoke the callback and
on success insert its node into the local overlay. The result carries the
updated view and the number of callback invocations (`0` or `1`);
`fetch_node` is modelled by the value the callback would produce. -/
def TrieNodeCache.get_or_insert_node (c : TrieNodeCache) (hash : Hash)
    (fetch_node : Except FetchError Node) :
    Except FetchError Node × TrieNodeCache × Nat :=
  match c.shared_cache hash with
  | some res => (.ok res, c, 0)
  | none =>
    match c.local_cache hash with
    | some res => (.ok res, c, 0)
    | none =>
      match fetch_node with
      | .error e => (.error e, c, 1)
      | .ok node =>
        (.ok node,
         { c with local_cache := c.local_cache.insert hash node }, 1)

/-- `TrieCache::insert_node(hash, node)`: unconditional insert into the
local overlay. -/
def TrieNodeCache.insert_node (c : TrieNodeCache) (hash : Hash)
    (node : Node) : TrieNodeCache :=
  { c with local_cache := c.local_cache.insert hash node }

/-- `TrieCache::get_node(hash)`: non-fetching lookup, shared snapshot
first, then the local overlay. -/
def TrieNodeCache.get_node (c : TrieNodeCache) (hash : Hash) : Option Node :=
  match c.shared_cache hash with
  | some node => some node
  | none => c.local_cache hash

/-- `TrieCache::lookup_data_for_key(key)`. -/
def TrieNodeCache.lookup_data_for_key (c : TrieNodeCache)
    (s : SharedTrieNodeCache) (key : Key) : Option (Option Bytes) :=
  c.data_cache.get s key

/-- `TrieCache::cache_data_for_key(key, data)`. -/
def TrieNodeCache.cache_data_for_key (c : TrieNodeCache)
    (s : SharedTrieNodeCache) (key : Key) (data : Option Bytes) :
    TrieNodeCache × SharedTrieNodeCache :=
  let p := c.data_cache.insert s key data
  ({ c with data_cache := p.1 }, p.2)

/-- One shared-state-affecting cache operation, for stating invariants
over arbitrary operation sequences. Each constructor is interpreted by
the corresponding source operation in `applyOp`. -/
inductive CacheOp where
  | releaseLocal (overlay : NodeMap) : CacheOp
  | mergeFresh (table : DataTable) (new_root : Hash) : CacheOp
  | bindRead (root : Hash) : CacheOp
  | recordBound (root : Hash) (key : Key) (data : Option Bytes) : CacheOp

/-- Interpret one `CacheOp` on the shared state, via the source
operations: local-cache release (`Drop`), `merge_into` of a `Fresh` view,
`as_trie_db_cache` binding (its `or_default` touches the shared data map),
and `cache_data_for_key` through a root-bound view. -/
def applyOp (s : SharedTrieNodeCache) : CacheOp → SharedTrieNodeCache
  | .releaseLocal overlay =>
    (LocalTrieNodeCache.release { local_map := overlay } s).1
  | .mergeFresh table new_root =>
    TrieNodeCache.merge_into
      { shared_cache := s.node_cache, local_cache := Map.empty,
        data_cache := .Fresh table } s new_root
  | .bindRead root =>
    (LocalTrieNodeCache.as_trie_db_cache { local_map := Map.empty } s root).2
  | .recordBound root key data =>
    (DataCache.insert (.ForStorageRoot root) s key data).2

/-- Record a list of `(key, data)` pairs through a view
(`cache_data_for_key` folded left to right). -/
def recordAll (c : TrieNodeCache) (s : SharedTrieNodeCache)
    (ops : List (Key × Option Bytes)) : TrieNodeCache × SharedTrieNodeCache :=
  ops.foldl (fun p op => TrieNodeCache.cache_data_for_key p.1 p.2 op.1 op.2)
    (c, s)

/-- The shared state `s2` keeps every key of `s`: every cached node hash
stays cached, the data map stays present, every per-root table stays
present, and every key of every per-root table stays present. (The stored
values may change; growth is about key sets.) -/
def keysGrow (s s2 : SharedTrieNodeCache) : Prop :=
  (∀ h, (s.node_cache h).isSome → (s2.node_cache h).isSome) ∧
  (∀ dm, s.data_cache = some dm → ∃ dm2, s2.data_cache = some dm2 ∧
    ∀ r t, dm r = some t → ∃ t2, dm2 r = some t2 ∧
      ∀ k, (t k).isSome → (t2 k).isSome)

/-- Interpret a sequence of shared-state operations, first to last. -/
def applyOps (s : SharedTrieNodeCache) (ops : List CacheOp) :
    SharedTrieNodeCache :=
  ops.foldl applyOp s

/-- A concrete shared cache for witnesses: data cache enabled, one table
for root `1` holding `[3] ↦ some [4]`. -/
def sharedWithRoot1 : SharedTrieNodeCache :=
  { node_cache := Map.empty,
    data_cache := some (Map.insert Map.empty 1
      (Map.insert Map.empty [3] (some [4]))) }

/-- A concrete shared cache for witnesses: data cache enabled, one table
for root `3` holding the negative entry `[9] ↦ none`. -/
def sharedWithRoot3 : SharedTrieNodeCache :=
  { node_cache := Map.empty,
    data_cache := some (Map.insert Map.empty 3
      (Map.insert Map.empty [9] none)) }

theorem keysGrow_refl (s : SharedTrieNodeCache) : keysGrow s s :=
  ⟨fun _ hh => hh, fun dm hdm => ⟨dm, hdm, fun _ t ht =>
    ⟨t, ht, fun _ hk => hk⟩⟩⟩

theorem keysGrow_trans {s1 s2 s3 : SharedTrieNodeCache}
    (h12 : keysGrow s1 s2) (h23 : keysGrow s2 s3) : keysGrow s1 s3 := by
  obtain ⟨hn12, hd12⟩ := h12
  obtain ⟨hn23, hd23⟩ := h23
  refine ⟨fun h hh => hn23 h (hn12 h hh), fun dm hdm => ?_⟩
  obtain ⟨dm2, hdm2, ht12⟩ := hd12 dm hdm
  obtain ⟨dm3, hdm3, ht23⟩ := hd23 dm2 hdm2
  refine ⟨dm3, hdm3, fun r t ht => ?_⟩
  obtain ⟨t2, ht2, hk12⟩ := ht12 r t ht
  obtain ⟨t3, ht3, hk23⟩ := ht23 r t2 ht2
  exact ⟨t3, ht3, fun k hk => hk23 k (hk12 k hk)⟩

theorem map_insert_keysome {K V : Type} [DecidableEq K] (m : Map K V)
    (k x : K) (v : V) (hx : (m x).isSome) : ((m.insert k v) x).isSome := by
  unfold Map.insert
  by_cases hxk : x = k
  · simp [hxk]
  · simpa [hxk] using hx

theorem map_extend_keysome {K V : Type} (m other : Map K V) (x : K)
    (hx : (m x).isSome) : ((m.extend other) x).isSome := by
  unfold Map.extend
  cases ho : other x
  · simpa [ho] using hx
  · simp [ho]

theorem keysGrow_applyOp (s : SharedTrieNodeCache) (op : CacheOp) :
    keysGrow s (applyOp s op) := by
  cases op with
  | releaseLocal overlay =>
    refine ⟨fun h hh => map_extend_keysome _ _ _ hh, fun dm hdm => ?_⟩
    exact ⟨dm, hdm, fun r t ht => ⟨t, ht, fun _ hk => hk⟩⟩
  | mergeFresh table new_root =>
    show keysGrow s (TrieNodeCache.merge_into _ s new_root)
    unfold TrieNodeCache.merge_into
    cases hdc : s.data_cache with
    | none => simpa [hdc] using keysGrow_refl s
    | some dm =>
      simp only [hdc]
      refine ⟨fun _ hh => hh, fun dm0 hdm0 => ?_⟩
      rw [hdc] at hdm0
      cases hdm0
      refine ⟨_, rfl, fun r t ht => ?_⟩
      by_cases hr : r = new_root
      · subst hr
        refine ⟨((dm r).getD Map.empty).extend table, by simp [Map.insert],
          fun k hk => ?_⟩
        rw [ht]
        exact map_extend_keysome _ _ _ hk
      · exact ⟨t, by simpa [Map.insert, hr] using ht, fun _ hk => hk⟩
  | bindRead root =>
    show keysGrow s (LocalTrieNodeCache.as_trie_db_cache _ s root).2
    unfold LocalTrieNodeCache.as_trie_db_cache
    cases hdc : s.data_cache with
    | none => simpa [hdc] using keysGrow_refl s
    | some dm =>
      simp only [hdc]
      refine ⟨fun _ hh => hh, fun dm0 hdm0 => ?_⟩
      rw [hdc] at hdm0
      cases hdm0
      refine ⟨_, rfl, fun r t ht => ?_⟩
      by_cases hr : r = root
      · subst hr
        exact ⟨t, by simp [Map.insert, ht], fun _ hk => hk⟩
      · exact ⟨t, by simpa [Map.insert, hr] using ht, fun _ hk => hk⟩
  | recordBound root key data =>
    show keysGrow s (DataCache.insert (.ForStorageRoot root) s key data).2
    unfold DataCache.insert
    cases hdc : s.data_cache with
    | none => simpa [hdc] using keysGrow_refl s
    | some dm =>
      simp only [hdc]
      refine ⟨fun _ hh => hh, fun dm0 hdm0 => ?_⟩
      rw [hdc] at hdm0
      cases hdm0
      refine ⟨_, rfl, fun r t ht => ?_⟩
      by_cases hr : r = root
      · subst hr
        refine ⟨((dm r).getD Map.empty).insert key data, by simp [Map.insert],
          fun k hk => ?_⟩
        rw [ht]
        exact map_insert_keysome _ _ _ _ hk
      · exact ⟨t, by simpa [Map.insert, hr] using ht, fun _ hk => hk⟩

/-- C1: on a hash absent from both the shared snapshot and the local
overlay, `get_or_insert_node` invokes the fetch callback exactly once; a
successful fetch is stored into the local overlay and returned; a failed
fetch is returned unchanged with the view (overlay and shared snapshot)
left unmodified, so nothing is cached on failure. -/
theorem C1_fetch_on_miss (c : TrieNodeCache) (h : Hash)
    (fetch_node : Except FetchError Node)
    (hs : c.shared_cache h = none) (hl : c.local_cache h = none) :
    (c.get_or_insert_node h fetch_node).2.2 = 1 ∧
    (∀ e, fetch_node = .error e →
      c.get_or_insert_node h fetch_node = (.error e, c, 1)) ∧
    (∀ n, fetch_node = .ok n →
      c.get_or_insert_node h fetch_node =
        (.ok n, { c with local_cache := c.local_cache.insert h n }, 1)) := by
  unfold TrieNodeCache.get_or_insert_node
  rw [hs, hl]
  cases fetch_node with
  | error e =>
    refine ⟨rfl, ?_, ?_⟩
    · intro e2 he
      cases he
      rfl
    · intro n hn
      cases hn
  | ok n =>
    refine ⟨rfl, ?_, ?_⟩
    · intro e2 he
      cases he
    · intro n2 hn
      cases hn
      rfl

/-- Witness for C1 at a concrete view and both callback outcomes. -/
theorem C1_fetch_on_miss_witness :
    ((Map.empty : NodeMap) 0 = none ∧ (Map.empty : NodeMap) 0 = none) ∧
    (TrieNodeCache.get_or_insert_node
        { shared_cache := Map.empty, local_cache := Map.empty,
          data_cache := .Disabled } 0 (.error 7)).2.2 = 1 ∧
    (∀ e, (Except.error 7 : Except FetchError Node) = .error e →
      TrieNodeCache.get_or_insert_node
        { shared_cache := Map.empty, local_cache := Map.empty,
          data_cache := .Disabled } 0 (.error 7) =
        (.error e,
         { shared_cache := Map.empty, local_cache := Map.empty,
           data_cache := .Disabled }, 1)) ∧
    (∀ n, (Except.error 7 : Except FetchError Node) = .ok n →
      TrieNodeCache.get_or_insert_node
        { shared_cache := Map.empty, local_cache := Map.empty,
          data_cache := .Disabled } 0 (.error 7) =
        (.ok n,
         { shared_cache := Map.empty,
           local_cache := Map.insert Map.empty 0 n,
           data_cache := .Disabled }, 1)) :=
  ⟨⟨rfl, rfl⟩, C1_fetch_on_miss
    { shared_cache := Map.empty, local_cache := Map.empty,
      data_cache := .Disabled } 0 (.error 7) rfl rfl⟩

/-- C2: on a hash present in the shared snapshot, `get_node` and
`get_or_insert_node` both return the shared entry, the view is unchanged,
the fetch callback is not invoked (count `0`), and — since the returned
triple is fully determined by the shared entry — the private overlay is
not consulted; the overlay decides the result only when the hash is
absent from the shared snapshot. -/
theorem C2_shared_before_local (c : TrieNodeCache) (h : Hash) (n : Node)
    (fetch_node : Except FetchError Node)
    (hs : c.shared_cache h = some n) :
    c.get_node h = some n ∧
    c.get_or_insert_node h fetch_node = (.ok n, c, 0) ∧
    (∀ h2, c.shared_cache h2 = none → c.get_node h2 = c.local_cache h2) := by
  refine ⟨?_, ?_, ?_⟩
  · unfold TrieNodeCache.get_node
    rw [hs]
  · unfold TrieNodeCache.get_or_insert_node
    rw [hs]
  · intro h2 h2s
    unfold TrieNodeCache.get_node
    rw [h2s]

/-- Witness for C2: a concrete view whose shared snapshot holds hash `3`
while the overlay holds a conflicting node that is never consulted. -/
theorem C2_shared_before_local_witness :
    (Map.insert (Map.empty : NodeMap) 3 11) 3 = some 11 ∧
    (TrieNodeCache.get_node
      { shared_cache := Map.insert Map.empty 3 11,
        local_cache := Map.insert Map.empty 3 99,
        data_cache := .Disabled } 3 = some 11 ∧
    TrieNodeCache.get_or_insert_node
      { shared_cache := Map.insert Map.empty 3 11,
        local_cache := Map.insert Map.empty 3 99,
        data_cache := .Disabled } 3 (.error 5) =
      (.ok 11,
       { shared_cache := Map.insert Map.empty 3 11,
         local_cache := Map.insert Map.empty 3 99,
         data_cache := .Disabled }, 0) ∧
    (∀ h2, (Map.insert (Map.empty : NodeMap) 3 11) h2 = none →
      TrieNodeCache.get_node
        { shared_cache := Map.insert Map.empty 3 11,
          local_cache := Map.insert Map.empty 3 99,
          data_cache := .Disabled } h2 =
        (Map.insert (Map.empty : NodeMap) 3 99) h2)) :=
  ⟨by decide, C2_shared_before_local
    { shared_cache := Map.insert Map.empty 3 11,
      local_cache := Map.insert Map.empty 3 99,
      data_cache := .Disabled } 3 11 (.error 5) (by decide)⟩

/-- C3: releasing a local cache copies every entry of its private overlay
into the shared node map (so each such node is afterwards retrievable
from the shared map) and leaves the drained overlay empty; the definition
of `release` applies unconditionally, independent of how the owning
operation ended. -/
theorem C3_release_promotes (l : LocalTrieNodeCache)
    (s : SharedTrieNodeCache) (h : Hash) (n : Node)
    (hl : l.local_map h = some n) :
    (l.release s).1.node_cache h = some n ∧
    (∀ h2, (l.release s).2.local_map h2 = none) := by
  constructor
  · show Map.extend s.node_cache l.local_map h = some n
    unfold Map.extend
    rw [hl]
  · intro h2
    rfl

/-- Witness for C3 at a singleton overlay over an empty shared cache. -/
theorem C3_release_promotes_witness :
    (Map.insert (Map.empty : NodeMap) 2 9) 2 = some 9 ∧
    ((LocalTrieNodeCache.release { local_map := Map.insert Map.empty 2 9 }
        (SharedTrieNodeCache.new true)).1.node_cache 2 = some 9 ∧
     (∀ h2, (LocalTrieNodeCache.release
        { local_map := Map.insert Map.empty 2 9 }
        (SharedTrieNodeCache.new true)).2.local_map h2 = none)) :=
  ⟨by decide, C3_release_promotes { local_map := Map.insert Map.empty 2 9 }
    (SharedTrieNodeCache.new true) 2 9 (by decide)⟩

/-- C4 counterexample: the claim "a node, once inserted into the Shared
Cache's node map under a hash, is never ... replaced by a different node
under that hash" fails as stated: releasing a second local cache whose
overlay holds a different node under hash `0` replaces the stored node
`5` by `7` (`HashMap::extend` overwrites on key collision). -/
theorem C4_node_replaced_counterexample :
    (applyOps (SharedTrieNodeCache.new false)
      [.releaseLocal (Map.insert Map.empty 0 5)]).node_cache 0 = some 5 ∧
    (applyOps (SharedTrieNodeCache.new false)
      [.releaseLocal (Map.insert Map.empty 0 5),
       .releaseLocal (Map.insert Map.empty 0 7)]).node_cache 0 = some 7 ∧
    (some 5 : Option Node) ≠ some 7 :=
  ⟨rfl, rfl, by decide⟩

/-- C4 (amended): over every sequence of shared-state cache operations,
key sets only ever grow — a cached hash is never removed from the node
map, a per-root value table is never removed, and no key of a per-root
table is ever removed; a later release may however overwrite the node
stored under an existing hash with the newly promoted node for that hash
(identical in content-addressed use), and merge/record may overwrite the
value stored under an existing key. -/
theorem C4_keys_only_grow (s : SharedTrieNodeCache) (ops : List CacheOp) :
    keysGrow s (applyOps s ops) := by
  induction ops generalizing s with
  | nil => exact keysGrow_refl s
  | cons op rest ih =>
    exact keysGrow_trans (keysGrow_applyOp s op) (ih (applyOp s op))

/-- C5: `merge_into` on a view whose data mode is `Disabled` or
`ForStorageRoot` leaves the shared state unchanged; on a `Fresh` view
(with the data map present) it extends the per-root table for `new_root`:
tables of other roots are untouched, every entry of the fresh table is in
the merged table, and entries of the previous table whose keys the fresh
table does not mention are preserved. -/
theorem C5_merge_mode_semantics (c : TrieNodeCache)
    (s : SharedTrieNodeCache) (new_root : Hash) :
    (c.data_cache = .Disabled → c.merge_into s new_root = s) ∧
    (∀ r, c.data_cache = .ForStorageRoot r → c.merge_into s new_root = s) ∧
    (∀ f dm, c.data_cache = .Fresh f → s.data_cache = some dm →
      ∃ dm2, c.merge_into s new_root = { s with data_cache := some dm2 } ∧
        (∀ r2, r2 ≠ new_root → dm2 r2 = dm r2) ∧
        (∃ t2, dm2 new_root = some t2 ∧
          (∀ k v, f k = some v → t2 k = some v) ∧
          (∀ k, f k = none → t2 k = ((dm new_root).getD Map.empty) k))) := by
  refine ⟨?_, ?_, ?_⟩
  · intro hdc
    unfold TrieNodeCache.merge_into
    rw [hdc]
  · intro r hdc
    unfold TrieNodeCache.merge_into
    rw [hdc]
  · intro f dm hdc hdm
    unfold TrieNodeCache.merge_into
    rw [hdc, hdm]
    refine ⟨Map.insert dm new_root
      (((dm new_root).getD Map.empty).extend f), rfl, ?_, ?_⟩
    · intro r2 hr2
      simp [Map.insert, hr2]
    · refine ⟨((dm new_root).getD Map.empty).extend f,
        by simp [Map.insert], ?_, ?_⟩
      · intro k v hk
        unfold Map.extend
        rw [hk]
      · intro k hk
        unfold Map.extend
        rw [hk]

/-- Witness for C5 at a concrete Fresh view and enabled shared cache:
the fresh entry `[1] ↦ some [8]` lands in the table for root `4`. -/
theorem C5_merge_mode_semantics_witness :
    ∃ dm2,
      TrieNodeCache.merge_into
        { shared_cache := Map.empty, local_cache := Map.empty,
          data_cache := .Fresh (Map.insert Map.empty [1] (some [8])) }
        (SharedTrieNodeCache.new true) 4 =
        { SharedTrieNodeCache.new true with data_cache := some dm2 } ∧
      (∀ r2, r2 ≠ 4 → dm2 r2 = (Map.empty : DataMap) r2) ∧
      (∃ t2, dm2 4 = some t2 ∧
        (∀ k v, (Map.insert (Map.empty : DataTable) [1] (some [8])) k
            = some v → t2 k = some v) ∧
        (∀ k, (Map.insert (Map.empty : DataTable) [1] (some [8])) k = none →
          t2 k = (((Map.empty : DataMap) 4).getD Map.empty) k)) :=
  (C5_merge_mode_semantics
    { shared_cache := Map.empty, local_cache := Map.empty,
      data_cache := .Fresh (Map.insert Map.empty [1] (some [8])) }
    (SharedTrieNodeCache.new true) 4).2.2
    (Map.insert Map.empty [1] (some [8])) Map.empty rfl rfl

theorem map_extend_extend {K V : Type} (m other : Map K V) :
    (m.extend other).extend other = m.extend other := by
  funext x
  unfold Map.extend
  cases hox : other x <;> rfl

theorem map_insert_ne {K V : Type} [DecidableEq K] (m : Map K V)
    (k x : K) (v : V) (h : x ≠ k) : m.insert k v x = m x := by
  unfold Map.insert
  simp [h]

theorem map_insert_existing {K V : Type} [DecidableEq K] (m : Map K V)
    (k : K) (v : V) (h : m k = some v) : m.insert k v = m := by
  funext x
  unfold Map.insert
  by_cases hx : x = k
  · subst hx
    simp [h]
  · simp [hx]

/-- Recording through a view whose data mode is `Fresh` touches neither
the shared state nor the view's node maps; the mode stays `Fresh`. -/
theorem recordAll_fresh (ops : List (Key × Option Bytes))
    (c : TrieNodeCache) (s : SharedTrieNodeCache) (t : DataTable)
    (hc : c.data_cache = .Fresh t) :
    (recordAll c s ops).2 = s ∧
    (recordAll c s ops).1.local_cache = c.local_cache ∧
    ∃ t2, (recordAll c s ops).1.data_cache = .Fresh t2 := by
  induction ops generalizing c s t with
  | nil => exact ⟨rfl, rfl, t, hc⟩
  | cons hd rest ih =>
    have hstep : TrieNodeCache.cache_data_for_key c s hd.1 hd.2 =
        ({ c with data_cache := .Fresh (Map.insert t hd.1 hd.2) }, s) := by
      unfold TrieNodeCache.cache_data_for_key DataCache.insert
      rw [hc]
    have hrw : recordAll c s (hd :: rest) =
        recordAll { c with data_cache := .Fresh (Map.insert t hd.1 hd.2) }
          s rest := by
      show List.foldl _ (TrieNodeCache.cache_data_for_key c s hd.1 hd.2)
        rest = _
      rw [hstep]
      rfl
    rw [hrw]
    exact ih _ _ _ rfl

/-- C6: data-cache entries inserted or pre-populated under root `r1` (by
a bound record, a fresh-table merge, or a read binding) are invisible to
lookups through a view bound to a different root `r2`; and binding a read
view to a root `r2` with no table yet auto-creates that table empty, so
every lookup through the fresh binding returns absence. -/
theorem C6_root_isolation (s : SharedTrieNodeCache) (r1 r2 : Hash)
    (l : LocalTrieNodeCache) (hne : r1 ≠ r2) :
    (∀ k d key, DataCache.get (.ForStorageRoot r2)
        (applyOp s (.recordBound r1 k d)) key =
      DataCache.get (.ForStorageRoot r2) s key) ∧
    (∀ f key, DataCache.get (.ForStorageRoot r2)
        (applyOp s (.mergeFresh f r1)) key =
      DataCache.get (.ForStorageRoot r2) s key) ∧
    (∀ key, DataCache.get (.ForStorageRoot r2)
        (applyOp s (.bindRead r1)) key =
      DataCache.get (.ForStorageRoot r2) s key) ∧
    (∀ dm, s.data_cache = some dm → dm r2 = none →
      (∃ dm2, (l.as_trie_db_cache s r2).2.data_cache = some dm2 ∧
        dm2 r2 = some Map.empty) ∧
      (∀ key, (l.as_trie_db_cache s r2).1.lookup_data_for_key
        (l.as_trie_db_cache s r2).2 key = none)) := by
  have hne2 : r2 ≠ r1 := Ne.symm hne
  refine ⟨?_, ?_, ?_, ?_⟩
  · intro k d key
    show DataCache.get (.ForStorageRoot r2)
      (DataCache.insert (.ForStorageRoot r1) s k d).2 key = _
    cases hdc : s.data_cache with
    | none =>
      have hspl : (DataCache.insert (.ForStorageRoot r1) s k d).2 = s := by
        unfold DataCache.insert
        rw [hdc]
      rw [hspl]
    | some dm =>
      have hspl : (DataCache.insert (.ForStorageRoot r1) s k d).2 =
          { s with data_cache := some (Map.insert dm r1
            (Map.insert ((dm r1).getD Map.empty) k d)) } := by
        unfold DataCache.insert
        rw [hdc]
      rw [hspl]
      unfold DataCache.get
      rw [hdc]
      simp only
      rw [map_insert_ne _ _ _ _ hne2]
  · intro f key
    show DataCache.get (.ForStorageRoot r2)
      (TrieNodeCache.merge_into
        { shared_cache := s.node_cache, local_cache := Map.empty,
          data_cache := .Fresh f } s r1) key = _
    cases hdc : s.data_cache with
    | none =>
      have hspl : TrieNodeCache.merge_into
          { shared_cache := s.node_cache, local_cache := Map.empty,
            data_cache := .Fresh f } s r1 = s := by
        unfold TrieNodeCache.merge_into
        rw [hdc]
      rw [hspl]
    | some dm =>
      have hspl : TrieNodeCache.merge_into
          { shared_cache := s.node_cache, local_cache := Map.empty,
            data_cache := .Fresh f } s r1 =
          { s with data_cache := some (Map.insert dm r1
            (Map.extend ((dm r1).getD Map.empty) f)) } := by
        unfold TrieNodeCache.merge_into
        rw [hdc]
      rw [hspl]
      unfold DataCache.get
      rw [hdc]
      simp only
      rw [map_insert_ne _ _ _ _ hne2]
  · intro key
    show DataCache.get (.ForStorageRoot r2)
      (LocalTrieNodeCache.as_trie_db_cache { local_map := Map.empty }
        s r1).2 key = _
    cases hdc : s.data_cache with
    | none =>
      have hspl : (LocalTrieNodeCache.as_trie_db_cache
          { local_map := Map.empty } s r1).2 = s := by
        unfold LocalTrieNodeCache.as_trie_db_cache
        rw [hdc]
      rw [hspl]
    | some dm =>
      have hspl : (LocalTrieNodeCache.as_trie_db_cache
          { local_map := Map.empty } s r1).2 =
          { s with data_cache := some (Map.insert dm r1
            ((dm r1).getD Map.empty)) } := by
        unfold LocalTrieNodeCache.as_trie_db_cache
        rw [hdc]
      rw [hspl]
      unfold DataCache.get
      rw [hdc]
      simp only
      rw [map_insert_ne _ _ _ _ hne2]
  · intro dm hdm hr2
    constructor
    · refine ⟨Map.insert dm r2 ((dm r2).getD Map.empty), ?_, ?_⟩
      · unfold LocalTrieNodeCache.as_trie_db_cache
        rw [hdm]
      · simp [Map.insert, hr2]
    · intro key
      unfold TrieNodeCache.lookup_data_for_key
        LocalTrieNodeCache.as_trie_db_cache
      rw [hdm]
      unfold DataCache.get
      simp [Map.insert, hr2, Map.empty]

/-- Witness for C6 at roots `r1 = 1`, `r2 = 2` over an enabled shared
cache that already holds an entry under root `1`. -/
theorem C6_root_isolation_witness :
    (1 : Hash) ≠ 2 ∧
    ((∀ k d key, DataCache.get (.ForStorageRoot 2)
        (applyOp sharedWithRoot1 (.recordBound 1 k d)) key =
      DataCache.get (.ForStorageRoot 2) sharedWithRoot1 key) ∧
    (∀ f key, DataCache.get (.ForStorageRoot 2)
        (applyOp sharedWithRoot1 (.mergeFresh f 1)) key =
      DataCache.get (.ForStorageRoot 2) sharedWithRoot1 key) ∧
    (∀ key, DataCache.get (.ForStorageRoot 2)
        (applyOp sharedWithRoot1 (.bindRead 1)) key =
      DataCache.get (.ForStorageRoot 2) sharedWithRoot1 key) ∧
    (∀ dm, sharedWithRoot1.data_cache = some dm → dm 2 = none →
      (∃ dm2, (LocalTrieNodeCache.as_trie_db_cache { local_map := Map.empty }
          sharedWithRoot1 2).2.data_cache = some dm2 ∧
        dm2 2 = some Map.empty) ∧
      (∀ key, (LocalTrieNodeCache.as_trie_db_cache { local_map := Map.empty }
          sharedWithRoot1 2).1.lookup_data_for_key
        (LocalTrieNodeCache.as_trie_db_cache { local_map := Map.empty }
          sharedWithRoot1 2).2 key = none))) :=
  ⟨by decide, C6_root_isolation sharedWithRoot1 1 2
    { local_map := Map.empty } (by decide)⟩

/-- C7: if `merge_into` is never invoked, a write view's recordings leave
the shared state untouched, and the subsequent local-cache release
changes only the shared node map (extending it with the overlay); the
shared data map is exactly what it was, so no recorded Fresh entry ever
appears in the shared cache. -/
theorem C7_unmerged_write_discard (l : LocalTrieNodeCache)
    (s : SharedTrieNodeCache) (ops : List (Key × Option Bytes)) :
    (recordAll (l.as_trie_db_mut_cache s) s ops).2 = s ∧
    (LocalTrieNodeCache.release
        { local_map := (recordAll (l.as_trie_db_mut_cache s) s
            ops).1.local_cache }
        (recordAll (l.as_trie_db_mut_cache s) s ops).2).1.data_cache =
      s.data_cache ∧
    (LocalTrieNodeCache.release
        { local_map := (recordAll (l.as_trie_db_mut_cache s) s
            ops).1.local_cache }
        (recordAll (l.as_trie_db_mut_cache s) s ops).2).1.node_cache =
      Map.extend s.node_cache
        (recordAll (l.as_trie_db_mut_cache s) s ops).1.local_cache := by
  have h := recordAll_fresh ops (l.as_trie_db_mut_cache s) s Map.empty rfl
  refine ⟨h.1, ?_, ?_⟩
  · rw [h.1]
    rfl
  · rw [h.1]
    rfl

/-- C8: merging the same fresh table into the same root twice yields the
same shared state as merging it once (the second `extend` re-inserts the
same entries, and re-inserting the merged table under the root is the
identity). -/
theorem C8_merge_idempotent (c1 c2 : TrieNodeCache)
    (s : SharedTrieNodeCache) (f : DataTable) (new_root : Hash)
    (h1 : c1.data_cache = .Fresh f) (h2 : c2.data_cache = .Fresh f) :
    c2.merge_into (c1.merge_into s new_root) new_root =
      c1.merge_into s new_root := by
  cases hdc : s.data_cache with
  | none =>
    have hinner : c1.merge_into s new_root = s := by
      unfold TrieNodeCache.merge_into
      rw [h1, hdc]
    rw [hinner]
    unfold TrieNodeCache.merge_into
    rw [h2, hdc]
  | some dm =>
    have hinner : c1.merge_into s new_root =
        { s with data_cache := some (Map.insert dm new_root
          (Map.extend ((dm new_root).getD Map.empty) f)) } := by
      unfold TrieNodeCache.merge_into
      rw [h1, hdc]
    rw [hinner]
    unfold TrieNodeCache.merge_into
    rw [h2]
    simp only
    rw [show (Map.insert dm new_root
        (Map.extend ((dm new_root).getD Map.empty) f) new_root).getD
          Map.empty =
        Map.extend ((dm new_root).getD Map.empty) f by simp [Map.insert]]
    rw [map_extend_extend]
    rw [map_insert_existing _ _ _ (by simp [Map.insert])]

/-- Witness for C8 at a concrete fresh table `[1] ↦ some [2]`, root `5`,
over an enabled shared cache. -/
theorem C8_merge_idempotent_witness :
    TrieNodeCache.merge_into
      { shared_cache := Map.empty, local_cache := Map.empty,
        data_cache := .Fresh (Map.insert Map.empty [1] (some [2])) }
      (TrieNodeCache.merge_into
        { shared_cache := Map.empty, local_cache := Map.empty,
          data_cache := .Fresh (Map.insert Map.empty [1] (some [2])) }
        (SharedTrieNodeCache.new true) 5) 5 =
    TrieNodeCache.merge_into
      { shared_cache := Map.empty, local_cache := Map.empty,
        data_cache := .Fresh (Map.insert Map.empty [1] (some [2])) }
      (SharedTrieNodeCache.new true) 5 :=
  C8_merge_idempotent
    { shared_cache := Map.empty, local_cache := Map.empty,
      data_cache := .Fresh (Map.insert Map.empty [1] (some [2])) }
    { shared_cache := Map.empty, local_cache := Map.empty,
      data_cache := .Fresh (Map.insert Map.empty [1] (some [2])) }
    (SharedTrieNodeCache.new true) (Map.insert Map.empty [1] (some [2])) 5
    rfl rfl

/-- C9: `Disabled` lookups always return absence and `Disabled` records
change nothing; `Fresh` and `ForStorageRoot` records insert/overwrite the
entry and a subsequent lookup returns exactly the stored entry — in
particular recording `none` yields a present entry mapped to no-value
(`some none`), distinguishable from a never-recorded key, whose lookup
returns `none`. -/
theorem C9_data_mode_semantics (s : SharedTrieNodeCache) (t : DataTable)
    (dm : DataMap) (root : Hash) (k : Key) (d : Option Bytes)
    (hs : s.data_cache = some dm) :
    (DataCache.get .Disabled s k = none ∧
     DataCache.insert .Disabled s k d = (.Disabled, s)) ∧
    ((DataCache.insert (.Fresh t) s k d).2 = s ∧
     DataCache.get (DataCache.insert (.Fresh t) s k d).1 s k = some d ∧
     DataCache.get (.Fresh Map.empty) s k = none) ∧
    ((DataCache.insert (.ForStorageRoot root) s k d).1 =
        .ForStorageRoot root ∧
     DataCache.get (.ForStorageRoot root)
       (DataCache.insert (.ForStorageRoot root) s k d).2 k = some d ∧
     (∀ t0, dm root = some t0 → t0 k = none →
       DataCache.get (.ForStorageRoot root) s k = none)) ∧
    (some (none : Option Bytes) ≠ (none : Option (Option Bytes))) := by
  refine ⟨⟨rfl, rfl⟩, ⟨rfl, ?_, rfl⟩, ⟨?_, ?_, ?_⟩, by simp⟩
  · show Map.insert t k d k = some d
    simp [Map.insert]
  · unfold DataCache.insert
    rw [hs]
  · unfold DataCache.insert DataCache.get
    rw [hs]
    simp only
    rw [show Map.insert dm root
      (Map.insert ((dm root).getD Map.empty) k d) root =
        some (Map.insert ((dm root).getD Map.empty) k d) by
          simp [Map.insert]]
    simp [Map.insert]
  · intro t0 ht0 htk
    unfold DataCache.get
    rw [hs]
    show (match dm root with
      | some t2 => t2 k
      | none => none) = none
    rw [ht0]
    exact htk

/-- Witness for C9 at the concrete enabled shared cache whose table for
root `3` caches `[9] ↦ none`, with `k = [1]`, `d = some [6]`. -/
theorem C9_data_mode_semantics_witness :
    sharedWithRoot3.data_cache = some (Map.insert Map.empty 3
      (Map.insert Map.empty [9] none)) ∧
    ((DataCache.get .Disabled sharedWithRoot3 [1] = none ∧
      DataCache.insert .Disabled sharedWithRoot3 [1] (some [6]) =
        (.Disabled, sharedWithRoot3)) ∧
    ((DataCache.insert (.Fresh Map.empty) sharedWithRoot3 [1]
        (some [6])).2 = sharedWithRoot3 ∧
     DataCache.get (DataCache.insert (.Fresh Map.empty) sharedWithRoot3
        [1] (some [6])).1 sharedWithRoot3 [1] = some (some [6]) ∧
     DataCache.get (.Fresh Map.empty) sharedWithRoot3 [1] = none) ∧
    ((DataCache.insert (.ForStorageRoot 3) sharedWithRoot3 [1]
        (some [6])).1 = .ForStorageRoot 3 ∧
     DataCache.get (.ForStorageRoot 3)
       (DataCache.insert (.ForStorageRoot 3) sharedWithRoot3 [1]
         (some [6])).2 [1] = some (some [6]) ∧
     (∀ t0, (Map.insert (Map.empty : DataMap) 3
          (Map.insert Map.empty [9] none)) 3 = some t0 → t0 [1] = none →
       DataCache.get (.ForStorageRoot 3) sharedWithRoot3 [1] = none)) ∧
    (some (none : Option Bytes) ≠ (none : Option (Option Bytes)))) :=
  ⟨rfl, C9_data_mode_semantics sharedWithRoot3 Map.empty
    (Map.insert Map.empty 3 (Map.insert Map.empty [9] none))
    3 [1] (some [6]) rfl⟩

/-- C10: with the data-cache feature disabled at construction the shared
data map is absent, a write view's data mode is still `Fresh` (with an
empty table), and `merge_into` on such a view leaves the shared state
unchanged — the fresh table is silently discarded, no error reported. -/
theorem C10_merge_noop_when_disabled (l : LocalTrieNodeCache)
    (s : SharedTrieNodeCache) (c : TrieNodeCache) (f : DataTable)
    (new_root : Hash) (hs : s.data_cache = none)
    (hc : c.data_cache = .Fresh f) :
    (SharedTrieNodeCache.new false).data_cache = none ∧
    (l.as_trie_db_mut_cache s).data_cache = .Fresh Map.empty ∧
    c.merge_into s new_root = s := by
  refine ⟨rfl, rfl, ?_⟩
  unfold TrieNodeCache.merge_into
  rw [hc, hs]

/-- Witness for C10: a freshly constructed disabled shared cache and a
write view carrying a nonempty fresh table. -/
theorem C10_merge_noop_when_disabled_witness :
    (SharedTrieNodeCache.new false).data_cache = none ∧
    (TrieNodeCache.data_cache
      { shared_cache := Map.empty, local_cache := Map.empty,
        data_cache := .Fresh (Map.insert Map.empty [2] (some [3])) } =
      .Fresh (Map.insert Map.empty [2] (some [3]))) ∧
    ((SharedTrieNodeCache.new false).data_cache = none ∧
     (LocalTrieNodeCache.as_trie_db_mut_cache { local_map := Map.empty }
        (SharedTrieNodeCache.new false)).data_cache = .Fresh Map.empty ∧
     TrieNodeCache.merge_into
       { shared_cache := Map.empty, local_cache := Map.empty,
         data_cache := .Fresh (Map.insert Map.empty [2] (some [3])) }
       (SharedTrieNodeCache.new false) 7 = SharedTrieNodeCache.new false) :=
  ⟨rfl, rfl, C10_merge_noop_when_disabled { local_map := Map.empty }
    (SharedTrieNodeCache.new false)
    { shared_cache := Map.empty, local_cache := Map.empty,
      data_cache := .Fresh (Map.insert Map.empty [2] (some [3])) }
    (Map.insert Map.empty [2] (some [3])) 7 rfl rfl⟩

end TrieCache
